import Mathlib

/-
Shallow embedding of the Scedel JSON validator (src/src/json-validator.js and
src/src/validation-error.js).

Modelling conventions:
* JavaScript values flowing through the validator are modelled by `Value`
  (JSON trees plus the `undefined` sentinel).  Numbers are modelled as exact
  rationals; the validator performs no arithmetic on them, so floating-point
  rounding is irrelevant to the verified properties.
* Native JavaScript operations that the source calls (JSON.parse, the RegExp
  engine, the relational operators with their coercions, String(),
  JSON.stringify) are abstracted into the `JsPrims` record; every theorem is
  parametric in them.
* The mutual recursion between `#validateAgainstTypeName` and
  `#validateTypeNode` is not structurally terminating in the source (a named
  type may refer to itself), so the embedding threads a fuel counter that is
  spent on every recursive step; exhausted fuel yields the empty diagnostic
  list, modelling the JS engine running out of stack.  All theorems are
  parametric in the fuel.
* The source mutates a shared `errors` array; every push happens in
  depth-first order, so the embedding equivalently returns the list of
  diagnostics appended by each call and concatenates them in the same order.
-/

namespace Scedel

/-- A JavaScript value as seen by the validator: the JSON data model plus the
`undefined` sentinel.  Objects are insertion-ordered association lists
(JavaScript objects produced by JSON.parse have distinct keys). -/
inductive Value where
  | undefV
  | null
  | bool (b : Bool)
  | num (n : Rat)
  | str (s : String)
  | arr (items : List Value)
  | obj (entries : List (String × Value))

/-- JavaScript `value === null || value === undefined`, the test performed by
the `??` operator. -/
def Value.isNullish : Value → Bool
  | .null => true
  | .undefV => true
  | _ => false

/-- JavaScript `a ?? b`. -/
def jsCoalesce (a b : Value) : Value :=
  if a.isNullish then b else a

/-- `isObject` from the source: non-null, `typeof === 'object'`, not an
array.  In the `Value` model exactly the `obj` constructor qualifies. -/
def isObjectV : Value → Bool
  | .obj _ => true
  | _ => false

/-- JavaScript `Array.isArray`. -/
def Value.isArr : Value → Bool
  | .arr _ => true
  | _ => false

/-- JavaScript strict equality `===` restricted to the values that the
validator compares.  Primitives compare structurally; for `arr`/`obj`
operands JavaScript compares references, about which the embedding has no
information, so they are conservatively unequal (every place the validator
uses `===` on a possibly-structured operand compares it against a primitive
produced by the literal parser). -/
def jsStrictEq : Value → Value → Bool
  | .undefV, .undefV => true
  | .null, .null => true
  | .bool a, .bool b => a == b
  | .num a, .num b => a == b
  | .str a, .str b => a == b
  | _, _ => false

/-- JavaScript `Object.prototype.hasOwnProperty.call(v, k)` for the object
values the validator probes. -/
def objHas (v : Value) (k : String) : Bool :=
  match v with
  | .obj es => es.any (fun e => e.1 == k)
  | _ => false

/-- JavaScript property read `v[k]` (only ever performed by the source after
a successful `hasOwnProperty` check; missing keys give `undefined`). -/
def objGet (v : Value) (k : String) : Value :=
  match v with
  | .obj es => (es.lookup k).getD .undefV
  | _ => .undefV

/-- src/src/validation-error.js: the diagnostic record. -/
structure ValidationError where
  path : String
  message : String
  code : String
  category : String
deriving DecidableEq, Repr

/-- A constraint usage attached to a `named` or `array` type node:
`{name, callArgs, argument}`.  `callArgs` is `none` when the field is
JavaScript `null`/`undefined` (the source guards it with `&&` and `??`);
`argument` is the raw single argument, `Value.null` when absent. -/
structure ConstraintUsage where
  name : String
  callArgs : Option (List Value)
  argument : Value

/-- A declared parameter of a custom validator: `{name, defaultExpr}`.
`defaultExpr` is the raw default, `Value.null` when absent. -/
structure ValidatorParam where
  name : String
  defaultExpr : Value

/-- A validator definition from the repository: builtin validators carry a
native predicate `evaluate(value, resolvedArgument)` (its JavaScript result
is an arbitrary value compared against `false` with `===`); custom
validators carry a textual `body` (an arbitrary JavaScript value; the source
checks it is a non-empty string) and their declared parameters. -/
inductive ValidatorDefinition where
  | builtin (evaluate : Value → Value → Value)
  | custom (body : Value) (params : List ValidatorParam)

mutual

/-- A type-expression node, mirroring the `typeNode.kind` dispatch of
`#validateTypeNode`.  The `other` constructor stands for every node the
switch does not handle: a `null`/non-object node (the early guard at the top
of `#validateTypeNode`) or an object with an unrecognized `kind` (the
`default` case); both return without touching the error list. -/
inductive TypeNode where
  | named (name : String) (constraints : List ConstraintUsage)
  | nullableNamed (name : String)
  | nullable (inner : TypeNode)
  | array (itemType : TypeNode) (constraints : List ConstraintUsage)
  | record (fields : List FieldDef)
  | dict (keyType : TypeNode) (valueType : TypeNode)
  | union (members : List TypeNode)
  | intersection (members : List TypeNode)
  | conditional (condition : String) (thenType : TypeNode) (elseType : TypeNode)
  | literal (value : Value)
  | absent
  | other

/-- A declared record field `{name, type, optional, defaultExpr}`.
`defaultExpr` is a raw JavaScript value; the source only ever compares it
against `null` with `!==`. -/
inductive FieldDef where
  | mk (name : String) (type : TypeNode) (optional : Bool) (defaultExpr : Value)

end

def FieldDef.name : FieldDef → String
  | .mk n _ _ _ => n

def FieldDef.type : FieldDef → TypeNode
  | .mk _ t _ _ => t

def FieldDef.optional : FieldDef → Bool
  | .mk _ _ o _ => o

def FieldDef.defaultExpr : FieldDef → Value
  | .mk _ _ _ d => d

/-- `field.type.kind === 'absent'`. -/
def TypeNode.isAbsentKind : TypeNode → Bool
  | .absent => true
  | _ => false

/-- A type definition from the repository: builtin types carry a native
shape predicate (`matches` in the source; `matches` is a Lean keyword so the
binder is named `matchesFn`); user-defined types carry a stored type
expression. -/
inductive TypeDefinition where
  | builtin (matchesFn : Value → Bool)
  | user (expr : TypeNode)

/-- The read-only repository contract the validator consumes:
`resolveRootType` (which may throw, modelled by `Except` carrying the
thrown message), `getType` and `getValidator`. -/
structure Repository where
  resolveRootType : Option String → Except String String
  getType : String → Option TypeDefinition
  getValidator : String → String → Option ValidatorDefinition

/-- Native JavaScript operations invoked by the source, abstracted:
`JSON.parse` (errors carry the exception message), `new RegExp(p, f)`
composed with `.test` (`none` models the constructor throwing on an invalid
pattern), the four relational operators with their implicit coercions,
`String(...)`, and `JSON.stringify`. -/
structure JsPrims where
  jsonParse : String → Except String Value
  regexCompile : String → String → Option (String → Bool)
  jsLt : Value → Value → Bool
  jsGt : Value → Value → Bool
  jsLe : Value → Value → Bool
  jsGe : Value → Value → Bool
  jsToString : Value → String
  jsonStringify : Value → String

/-- The evaluation scope `{root, current, parent}` threaded through the
recursion; `parent` is JavaScript `null` at the root. -/
structure Scope where
  root : Value
  current : Value
  parent : Value

/-- The `jsonInput` parameter of `validate`: raw text (to be decoded) or an
already-decoded value. -/
inductive Input where
  | text (s : String)
  | value (v : Value)

/-- The whitespace class used by JavaScript `\s` and `String.trim` on the
characters the validator can meet: space, tab, LF, CR, VT, FF and NBSP
(further Unicode space characters behave identically and are not
distinguished by any schema text). -/
def isJsWs (c : Char) : Bool :=
  c = ' ' || c = '\t' || c = '\n' || c = '\r'
    || c = Char.ofNat 11 || c = Char.ofNat 12 || c = Char.ofNat 160

/-- Drop leading and trailing whitespace from a character list. -/
def jsTrimList (l : List Char) : List Char :=
  ((l.dropWhile isJsWs).reverse.dropWhile isJsWs).reverse

/-- JavaScript `String.prototype.trim`. -/
def jsTrim (s : String) : String :=
  String.mk (jsTrimList s.toList)

/-- Regex class `[A-Za-z_]` (identifier start). -/
def identStart (c : Char) : Bool :=
  c.isAlpha || c = '_'

/-- Regex class `[A-Za-z0-9_]` (identifier continuation). -/
def identChar (c : Char) : Bool :=
  c.isAlphanum || c = '_'

/-- `\s*`: skip any whitespace. -/
def skipWs (l : List Char) : List Char :=
  l.dropWhile isJsWs

/-- `\s+`: require at least one whitespace character, then skip the run. -/
def skipWs1 : List Char → Option (List Char)
  | c :: rest => if isJsWs c then some (skipWs rest) else none
  | [] => none

/-- Match a literal token at the head of the input. -/
def dropToken : List Char → List Char → Option (List Char)
  | [], l => some l
  | t :: ts, c :: cs => if c = t then dropToken ts cs else none
  | _ :: _, [] => none

/-- Maximal-munch identifier, per `[A-Za-z_][A-Za-z0-9_]*`. -/
def parseIdent : List Char → Option (String × List Char)
  | c :: rest =>
      if identStart c then
        let tail := rest.takeWhile identChar
        some (String.mk (c :: tail), rest.drop tail.length)
      else none
  | [] => none

/-- Digit-run to a natural number (operands are ASCII digits). -/
def digitsToNat (l : List Char) : Nat :=
  l.foldl (fun acc c => acc * 10 + (c.toNat - 48)) 0

/-- The numeric-literal shape `-?\d+(\.\d+)?` from `parseMaybeLiteral`. -/
def isNumericLiteral (s : String) : Bool :=
  let body := fun (l : List Char) =>
    let ds := l.takeWhile Char.isDigit
    let rest := l.drop ds.length
    !ds.isEmpty &&
      (rest.isEmpty ||
        (match rest with
         | '.' :: fs => !fs.isEmpty && fs.all Char.isDigit
         | _ => false))
  match s.toList with
  | '-' :: rest => body rest
  | l => body l

/-- Exact value of a decimal literal accepted by `isNumericLiteral`
(JavaScript `Number(trimmed)`; the embedding keeps the exact rational). -/
def ratOfDecimal (s : String) : Rat :=
  let signed := fun (l : List Char) (sign : Rat) =>
    let ds := l.takeWhile Char.isDigit
    let rest := l.drop ds.length
    let fs := match rest with
      | '.' :: fs => fs
      | _ => []
    sign * ((digitsToNat ds : Rat) + (digitsToNat fs : Rat) / ((10 : Rat) ^ fs.length))
  match s.toList with
  | '-' :: rest => signed rest (-1)
  | l => signed l 1

/-- The quoted-text test from `parseMaybeLiteral`: starts and ends with `"`,
or starts and ends with a single quote. -/
def isQuotedLiteral (t : String) : Bool :=
  (t.startsWith "\"" && t.endsWith "\"") || (t.startsWith "'" && t.endsWith "'")

/-- The escape table of `decodeStringLiteral`: `\n`, `\r`, `\t` decode;
every other escaped character stands for itself. -/
def escChar (c : Char) : Char :=
  if c = 'n' then '\n' else if c = 'r' then '\r' else if c = 't' then '\t' else c

/-- The character loop of `decodeStringLiteral`, with its `escaped` flag. -/
def decodeChars (escaped : Bool) : List Char → List Char
  | [] => []
  | c :: rest =>
      if escaped then escChar c :: decodeChars false rest
      else if c = '\\' then decodeChars true rest
      else c :: decodeChars false rest

/-- `decodeStringLiteral`: strip the enclosing quotes (the loop runs from
index 1 to `length - 2`) and process backslash escapes. -/
def decodeStringLiteral (v : String) : String :=
  String.mk (decodeChars false ((v.toList.drop 1).dropLast))

/-- `parseMaybeLiteral`: literal coercion of a raw textual operand.
Non-strings (including `null` and `undefined`, which the source returns
before the `typeof` test) pass through untouched. -/
def parseMaybeLiteral (value : Value) : Value :=
  match value with
  | .str s =>
      let trimmed := jsTrim s
      if trimmed = "true" then .bool true
      else if trimmed = "false" then .bool false
      else if trimmed = "null" then .null
      else if isNumericLiteral trimmed then .num (ratOfDecimal trimmed)
      else if isQuotedLiteral trimmed then .str (decodeStringLiteral trimmed)
      else .str trimmed
  | v => v

/-- Split a character list at every dot (used to validate the dotted-path
capture of `evaluateCondition`). -/
def splitOnDot (l : List Char) : List (List Char) :=
  l.foldr
    (fun c acc =>
      if c = '.' then [] :: acc
      else
        match acc with
        | a :: as => (c :: a) :: as
        | [] => [[c]])
    [[]]

/-- A nonempty run of identifier characters starting with `[A-Za-z_]`. -/
def validIdentChars : List Char → Bool
  | c :: rest => identStart c && rest.all identChar
  | [] => false

/-- The guard-condition shape of `evaluateCondition`:
`^([A-Za-z_][A-Za-z0-9_]*(?:\.[A-Za-z_][A-Za-z0-9_]*)*)\s*(=|!=)\s*(.+)$`
(with the `s` flag).  Returns the dotted-path segments, the operator and the
raw remainder (the caller trims it, which makes the `\s*` before the final
greedy capture immaterial).  The dotted path is recognized by taking the
maximal run of identifier/dot characters and checking it against the path
grammar; this coincides with the regex because a failed shorter path match
would leave an identifier or dot character where `\s*(=|!=)` can never
match. -/
def parseCondition (condition : String) : Option (List String × String × String) :=
  let l := condition.toList
  let pathChars := l.takeWhile (fun c => identChar c || c = '.')
  let rest0 := l.drop pathChars.length
  if pathChars.isEmpty then none
  else
    let segs := splitOnDot pathChars
    if !segs.all validIdentChars then none
    else
      match skipWs rest0 with
      | '=' :: rest2 =>
          if rest2.isEmpty then none
          else some (segs.map String.mk, "=", String.mk rest2)
      | '!' :: '=' :: rest2 =>
          if rest2.isEmpty then none
          else some (segs.map String.mk, "!=", String.mk rest2)
      | _ => none

/-- The operator class `[<>]=?` of the ranged-comparison body shape. -/
def parseRelOp : List Char → Option (String × List Char)
  | '<' :: '=' :: rest => some ("<=", rest)
  | '<' :: rest => some ("<", rest)
  | '>' :: '=' :: rest => some (">=", rest)
  | '>' :: rest => some (">", rest)
  | _ => none

/-- The ordered alternation `(<=|>=|<|>|=|!=)` of the simple-comparison
body shape. -/
def parseCompOp : List Char → Option (String × List Char)
  | '<' :: '=' :: rest => some ("<=", rest)
  | '>' :: '=' :: rest => some (">=", rest)
  | '<' :: rest => some ("<", rest)
  | '>' :: rest => some (">", rest)
  | '=' :: rest => some ("=", rest)
  | '!' :: '=' :: rest => some ("!=", rest)
  | _ => none

/-- `\$([A-Za-z_][A-Za-z0-9_]*)`. -/
def parseDollarIdent : List Char → Option (String × List Char)
  | '$' :: rest => parseIdent rest
  | _ => none

/-- The whole-remainder regex-literal capture `(\/.*\/)$`: the remainder
must start and end with `/` and have length at least two. -/
def regexTail : List Char → Option String
  | '/' :: rest =>
      if rest.isEmpty then none
      else if rest.getLast? = some '/' then some (String.mk ('/' :: rest))
      else none
  | _ => none

/-- Body shape `^this\s+matches\s+(\/.*\/)$` (with the `s` flag). -/
def parseRegexMatch (body : String) : Option String :=
  match dropToken "this".toList body.toList with
  | none => none
  | some r1 =>
    match skipWs1 r1 with
    | none => none
    | some r2 =>
      match dropToken "matches".toList r2 with
      | none => none
      | some r3 =>
        match skipWs1 r3 with
        | none => none
        | some r4 => regexTail r4

/-- Body shape `^not\s*\(\s*this\s+matches\s+(\/.*\/)\s*\)$` (with the `s`
flag).  The greedy capture extends to the last `/` that is followed only by
whitespace and the closing parenthesis, so the parse drops the final `)` and
the whitespace run before it. -/
def parseRegexNegation (body : String) : Option String :=
  match dropToken "not".toList body.toList with
  | none => none
  | some r1 =>
    match skipWs r1 with
    | '(' :: r3 =>
      match dropToken "this".toList (skipWs r3) with
      | none => none
      | some r5 =>
        match skipWs1 r5 with
        | none => none
        | some r6 =>
          match dropToken "matches".toList r6 with
          | none => none
          | some r7 =>
            match skipWs1 r7 with
            | none => none
            | some r8 =>
              match r8.reverse with
              | ')' :: revRest => regexTail (revRest.dropWhile isJsWs).reverse
              | _ => none
    | _ => none

/-- Body shape
`^this\s*([<>]=?)\s*\$(ident)\s+and\s+this\s*([<>]=?)\s*\$(ident)$`. -/
def parseRangeAnd (body : String) : Option (String × String × String × String) :=
  match dropToken "this".toList body.toList with
  | none => none
  | some r1 =>
    match parseRelOp (skipWs r1) with
    | none => none
    | some (op1, r2) =>
      match parseDollarIdent (skipWs r2) with
      | none => none
      | some (n1, r3) =>
        match skipWs1 r3 with
        | none => none
        | some r4 =>
          match dropToken "and".toList r4 with
          | none => none
          | some r5 =>
            match skipWs1 r5 with
            | none => none
            | some r6 =>
              match dropToken "this".toList r6 with
              | none => none
              | some r7 =>
                match parseRelOp (skipWs r7) with
                | none => none
                | some (op2, r8) =>
                  match parseDollarIdent (skipWs r8) with
                  | none => none
                  | some (n2, r9) =>
                    if r9.isEmpty then some (op1, n1, op2, n2) else none

/-- Body shape `^this\s*(<=|>=|<|>|=|!=)\s*(.+)$` (with the `s` flag).
Returns the operator and the raw remainder; the caller trims it, which makes
the `\s*` before the greedy capture immaterial. -/
def parseSimpleComparison (body : String) : Option (String × String) :=
  match dropToken "this".toList body.toList with
  | none => none
  | some r1 =>
    match parseCompOp (skipWs r1) with
    | none => none
    | some (op, r2) =>
      if r2.isEmpty then none else some (op, String.mk r2)

/-- `compileRegexLiteral`'s shape check `^\/(.*)\/([a-z]*)$`: split the raw
literal at the last `/`; the suffix must be all lowercase letters (a flag
run can never span a `/`, so no earlier slash can rescue a failed
match). -/
def splitRegexRaw (raw : String) : Option (String × String) :=
  match raw.toList with
  | '/' :: rest =>
      let rev := rest.reverse
      let flagsRev := rev.takeWhile (fun c => c ≠ '/')
      if flagsRev.length = rev.length then none
      else
        let pat := (rev.drop (flagsRev.length + 1)).reverse
        let flags := flagsRev.reverse
        if flags.all (fun c => 'a' ≤ c && c ≤ 'z') then
          some (String.mk pat, String.mk flags)
        else none
  | _ => none

/-- `compileRegexLiteral`: parse the shape, then hand the pattern and flags
to the native RegExp engine (`none` also models the constructor
throwing). -/
def compileRegexLiteral (prims : JsPrims) (raw : String) : Option (String → Bool) :=
  match splitRegexRaw raw with
  | none => none
  | some (pat, flags) => prims.regexCompile pat flags

/-- `compare(left, operator, right)`: the relational operators delegate to
the native JavaScript comparison, `=`/`!=` to strict equality, and any other
operator string yields `false` (the switch default). -/
def compare (prims : JsPrims) (left : Value) (op : String) (right : Value) : Bool :=
  if op = "<" then prims.jsLt left right
  else if op = ">" then prims.jsGt left right
  else if op = "<=" then prims.jsLe left right
  else if op = ">=" then prims.jsGe left right
  else if op = "=" then jsStrictEq left right
  else if op = "!=" then !jsStrictEq left right
  else false

/-- The guard `!validator.body || typeof validator.body !== 'string'` of
`evaluateCustomValidator`: only a non-empty string passes (the empty string
is falsy). -/
def bodyText : Value → Option String
  | .str s => if s = "" then none else some s
  | _ => none

/-- Read a bound parameter from the `args` object.  Later bindings to the
same name overwrite earlier ones (JavaScript property assignment), and a
missing key reads as `undefined`. -/
def argLookup (args : List (String × Value)) (n : String) : Value :=
  (args.reverse.lookup n).getD .undefV

/-- `resolveConstraintArgument`: one call-argument is literal-coerced, two
or more are each coerced and collected into an array, no call-arguments
falls back to the raw `argument` field. -/
def resolveConstraintArgument (c : ConstraintUsage) : Value :=
  match c.callArgs with
  | some (a :: rest) =>
      if rest.isEmpty then parseMaybeLiteral a
      else .arr ((a :: rest).map parseMaybeLiteral)
  | _ => c.argument

/-- `evaluateCustomValidator`: bind positional call-arguments (falling back
to `argument` when `callArgs` is nullish, each entry coalesced with the
parameter's default expression and `null`), then match the trimmed body
against the four recognized shapes in source order.  `none` is the
JavaScript `null` result (indeterminate). -/
def evaluateCustomValidator (prims : JsPrims) (body : Value)
    (params : List ValidatorParam) (c : ConstraintUsage) (value : Value)
    (_scope : Scope) : Option Bool :=
  match bodyText body with
  | none => none
  | some rawBody =>
    let incomingArgs : List Value :=
      match c.callArgs with
      | some l => l
      | none => if jsStrictEq c.argument .null then [] else [c.argument]
    let args : List (String × Value) :=
      params.enum.map (fun p =>
        (p.2.name,
         parseMaybeLiteral
           (jsCoalesce (jsCoalesce (incomingArgs.getD p.1 .undefV) p.2.defaultExpr) .null)))
    let b := jsTrim rawBody
    match parseRegexNegation b with
    | some raw =>
        match compileRegexLiteral prims raw with
        | some test => some (!test (prims.jsToString (jsCoalesce value (.str ""))))
        | none => none
    | none =>
      match parseRegexMatch b with
      | some raw =>
          match compileRegexLiteral prims raw with
          | some test => some (test (prims.jsToString (jsCoalesce value (.str ""))))
          | none => none
      | none =>
        match parseRangeAnd b with
        | some (op1, n1, op2, n2) =>
            some (compare prims value op1 (argLookup args n1)
                    && compare prims value op2 (argLookup args n2))
        | none =>
          match parseSimpleComparison b with
          | some (op, rest) =>
              let right := jsTrim rest
              let rightValue :=
                if right.startsWith "$" then argLookup args (right.drop 1)
                else parseMaybeLiteral (.str right)
              some (compare prims value op rightValue)
          | none => none

/-- The dotted-path walk inside `evaluateCondition`: `none` when some step
finds a non-object or a missing key (the source's early `return false`). -/
def pathWalk (v : Value) : List String → Option Value
  | [] => some v
  | seg :: rest =>
      if isObjectV v && objHas v seg then pathWalk (objGet v seg) rest
      else none

/-- `evaluateCondition(condition, objectValue)`: `none` is the JavaScript
`null` result.  A non-object scope and an unparseable condition are
indeterminate; a failed walk is `false`; otherwise the reached value is
strictly compared with the literal-coerced right-hand side. -/
def evaluateCondition (condition : String) (objectValue : Value) : Option Bool :=
  if !isObjectV objectValue then none
  else
    match parseCondition condition with
    | none => none
    | some (segs, op, rest) =>
      let expected := parseMaybeLiteral (.str (jsTrim rest))
      match pathWalk objectValue segs with
      | none => some false
      | some current =>
          if op = "=" then some (jsStrictEq current expected)
          else some (!jsStrictEq current expected)

/-- `#applyConstraint`: resolve the `(targetType, name)` pair, then run
either the builtin native predicate (error exactly when it returns the
JavaScript value `false`) or the custom-validator interpreter (error exactly
when it returns `false`; `true` and indeterminate pass). -/
def applyConstraint (prims : JsPrims) (targetType : String) (c : ConstraintUsage)
    (value : Value) (path : String) (repo : Repository) (scope : Scope) :
    List ValidationError :=
  match repo.getValidator targetType c.name with
  | none =>
      [⟨path, "Unknown constraint: " ++ targetType ++ "." ++ c.name,
        "UnknownConstraint", "SemanticError"⟩]
  | some (.builtin ev) =>
      if jsStrictEq (ev value (resolveConstraintArgument c)) (.bool false) then
        [⟨path, "Constraint failed: " ++ targetType ++ "." ++ c.name,
          "ConstraintViolation", "ValidationError"⟩]
      else []
  | some (.custom body params) =>
      if evaluateCustomValidator prims body params c value scope = some false then
        [⟨path, "Constraint failed: " ++ targetType ++ "." ++ c.name,
          "ValidatorFailed", "ValidationError"⟩]
      else []

mutual

/-- `#validateAgainstTypeName`: resolve the name (unknown names yield one
`UnknownType` error), test builtin types with their native predicate, and
recurse into the stored expression of user-defined types. -/
def validateAgainstTypeName (prims : JsPrims) :
    Nat → Value → String → String → Repository → Scope → List ValidationError
  | 0, _, _, _, _, _ => []
  | fuel + 1, value, typeName, path, repo, scope =>
    match repo.getType typeName with
    | none => [⟨path, "Unknown type: " ++ typeName, "UnknownType", "TypeError"⟩]
    | some (.builtin matchesFn) =>
        if matchesFn value then []
        else [⟨path, "Expected " ++ typeName ++ ".", "TypeMismatch", "TypeError"⟩]
    | some (.user expr) => validateTypeNode prims fuel expr value path repo scope

/-- `#validateTypeNode`: the recursive structural evaluator.  Diagnostics
are returned in the order the source pushes them.  The `#isValid` helper
(fresh error list, path `$`, same scope) is inlined at its two call sites.
In the conditional case the source picks the branch with
`if (branch)`, a truthiness test; the match below agrees with it
observationally, because a JavaScript-null branch node (an `other` node
here) yields no diagnostics under the strict path and also satisfies the
permissive either-branch fallback. -/
def validateTypeNode (prims : JsPrims) :
    Nat → TypeNode → Value → String → Repository → Scope → List ValidationError
  | 0, _, _, _, _, _ => []
  | fuel + 1, node, value, path, repo, scope =>
    match node with
    | .named name cs =>
        validateAgainstTypeName prims fuel value name path repo scope ++
          cs.flatMap (fun c => applyConstraint prims name c value path repo scope)
    | .nullableNamed name =>
        if jsStrictEq value .null then []
        else validateAgainstTypeName prims fuel value name path repo scope
    | .nullable inner =>
        if jsStrictEq value .null then []
        else validateTypeNode prims fuel inner value path repo scope
    | .array itemType cs =>
        match value with
        | .arr items =>
            cs.flatMap (fun c => applyConstraint prims "Array" c value path repo scope) ++
              items.enum.flatMap (fun p =>
                validateTypeNode prims fuel itemType p.2
                  (path ++ "[" ++ toString p.1 ++ "]") repo
                  { scope with current := p.2, parent := value })
        | _ => [⟨path, "Expected array.", "TypeMismatch", "TypeError"⟩]
    | .record fields =>
        match value with
        | .obj _ =>
            fields.flatMap (fun field =>
              if objHas value field.name then
                let fieldValue := objGet value field.name
                validateTypeNode prims fuel field.type fieldValue
                  (path ++ "." ++ field.name) repo
                  { scope with current := fieldValue, parent := value }
              else if field.optional || !jsStrictEq field.defaultExpr .null
                  || field.type.isAbsentKind then []
              else
                [⟨path ++ "." ++ field.name, "Missing required field.",
                  "FieldMissing", "ValidationError"⟩])
        | _ => [⟨path, "Expected object.", "TypeMismatch", "TypeError"⟩]
    | .dict keyType valueType =>
        match value with
        | .obj entries =>
            entries.flatMap (fun e =>
              validateTypeNode prims fuel keyType (.str e.1)
                (path ++ ".[key:" ++ e.1 ++ "]") repo
                { scope with current := .str e.1, parent := value } ++
              validateTypeNode prims fuel valueType e.2
                (path ++ "." ++ e.1) repo
                { scope with current := e.2, parent := value })
        | _ => [⟨path, "Expected object/dict.", "TypeMismatch", "TypeError"⟩]
    | .union members =>
        if members.any (fun m =>
            (validateTypeNode prims fuel m value "$" repo scope).isEmpty) then []
        else
          [⟨path, "Value does not match any union member.", "TypeMismatch", "TypeError"⟩]
    | .intersection members =>
        members.flatMap (fun m => validateTypeNode prims fuel m value path repo scope)
    | .conditional condition thenType elseType =>
        match evaluateCondition condition (jsCoalesce scope.parent scope.root) with
        | some true => validateTypeNode prims fuel thenType value path repo scope
        | some false => validateTypeNode prims fuel elseType value path repo scope
        | none =>
            if !(validateTypeNode prims fuel thenType value "$" repo scope).isEmpty
                && !(validateTypeNode prims fuel elseType value "$" repo scope).isEmpty then
              [⟨path, "Value does not match conditional branches.",
                "TypeMismatch", "TypeError"⟩]
            else []
    | .literal lit =>
        if !jsStrictEq value lit then
          [⟨path, "Expected literal " ++ prims.jsonStringify lit ++ ".",
            "TypeMismatch", "TypeError"⟩]
        else []
    | .absent =>
        if !jsStrictEq value .undefV then
          [⟨path, "Expected field to be absent.", "FieldMustBeAbsent",
            "ValidationError"⟩]
        else []
    | .other => []

end

/-- `#isValid`: run an isolated sub-evaluation at path `$` with a fresh
error list and report whether it stayed empty. -/
def isValid (prims : JsPrims) (fuel : Nat) (node : TypeNode) (value : Value)
    (repo : Repository) (scope : Scope) : Bool :=
  (validateTypeNode prims fuel node value "$" repo scope).isEmpty

/-- The `typeof jsonInput === 'string' ? JSON.parse(jsonInput) : jsonInput`
step of `validate`. -/
def decodeInput (prims : JsPrims) : Input → Except String Value
  | .text s => prims.jsonParse s
  | .value v => .ok v

/-- `JsonValidator.validate`: decode, resolve the root type, then run the
structural evaluator over the whole value with the initial scope
`{root: value, current: value, parent: null}`. -/
def validate (prims : JsPrims) (fuel : Nat) (jsonInput : Input)
    (repo : Repository) (rootType : Option String) : List ValidationError :=
  match decodeInput prims jsonInput with
  | .error msg =>
      [⟨"$", "Invalid JSON: " ++ msg, "InvalidExpression", "ParseError"⟩]
  | .ok value =>
    match repo.resolveRootType rootType with
    | .error msg => [⟨"$", msg, "UnknownType", "TypeError"⟩]
    | .ok resolvedRoot =>
        validateAgainstTypeName prims fuel value resolvedRoot "$" repo
          ⟨value, value, .null⟩

/-- Spec-side description of string-literal unescaping, written from the
specification's words: the backslash escapes for `\n`, `\r`, `\t` are
decoded, any other escaped character is passed through literally (a trailing
lone backslash contributes nothing). -/
def unescapeSpec : List Char → List Char
  | [] => []
  | [c] => if c = '\\' then [] else [c]
  | c :: c2 :: rest =>
      if c = '\\' then escChar c2 :: unescapeSpec rest
      else c :: unescapeSpec (c2 :: rest)

/-- The index-and-flag loop of `decodeStringLiteral` computes exactly the
spec-side unescaping. -/
theorem decodeChars_eq_unescapeSpec : ∀ l : List Char, decodeChars false l = unescapeSpec l
  | [] => rfl
  | [c] => by
      by_cases hc : c = '\\' <;>
        simp [decodeChars, unescapeSpec, hc]
  | c :: c2 :: rest => by
      by_cases hc : c = '\\'
      · simp [decodeChars, unescapeSpec, hc, decodeChars_eq_unescapeSpec rest]
      · simp [decodeChars, unescapeSpec, hc, ← decodeChars_eq_unescapeSpec (c2 :: rest)]

/-- Concrete `JsPrims` instance used by the witness theorems. -/
def prims0 : JsPrims :=
  { jsonParse := fun s => if s = "7" then .ok (.num 7) else .error "Unexpected token",
    regexCompile := fun _ _ => some (fun s => s = "ok"),
    jsLt := fun _ _ => false, jsGt := fun _ _ => false,
    jsLe := fun _ _ => false, jsGe := fun _ _ => false,
    jsToString := fun v => match v with | .str s => s | _ => "",
    jsonStringify := fun _ => "null" }

/-- Concrete repository used by the witness theorems: a builtin `String`
type and a user-defined record `Root` with one required `title` field. -/
def repo0 : Repository :=
  { resolveRootType := fun o =>
      match o with
      | some n => .ok n
      | none => .error "No root type declared",
    getType := fun n =>
      if n = "String" then some (.builtin (fun v => v matches .str _))
      else if n = "Root" then
        some (.user (.record [⟨"title", .named "String" [], false, .null⟩]))
      else none,
    getValidator := fun _ _ => none }

/-- Scope used by the witness theorems. -/
def scope0 : Scope := ⟨.null, .null, .null⟩

/-- Claim C1: `validate` aborts early with a single-element diagnostic list
in exactly two cases — a textual input that fails to decode (one
`InvalidExpression`/`ParseError` at `$`) and a root type the repository
cannot resolve (one `UnknownType`/`TypeError` at `$`); in every other case
the returned list is exactly what the depth-first traversal of the whole
value accumulates. -/
theorem validate_propagation (prims : JsPrims) (fuel : Nat) (repo : Repository)
    (rootType : Option String) :
    (∀ input msg, decodeInput prims input = .error msg →
        validate prims fuel input repo rootType =
          [⟨"$", "Invalid JSON: " ++ msg, "InvalidExpression", "ParseError"⟩]) ∧
    (∀ input value msg, decodeInput prims input = .ok value →
        repo.resolveRootType rootType = .error msg →
        validate prims fuel input repo rootType =
          [⟨"$", msg, "UnknownType", "TypeError"⟩]) ∧
    (∀ input value root, decodeInput prims input = .ok value →
        repo.resolveRootType rootType = .ok root →
        validate prims fuel input repo rootType =
          validateAgainstTypeName prims fuel value root "$" repo
            ⟨value, value, .null⟩) := by
  refine ⟨fun input msg h => ?_, fun input value msg h1 h2 => ?_,
    fun input value root h1 h2 => ?_⟩
  · simp [validate, h]
  · simp [validate, h1, h2]
  · simp [validate, h1, h2]

/-- Claim C1 witness: concrete instances of the three propagation cases. -/
theorem validate_propagation_witness :
    validate prims0 5 (.text "bad json") repo0 (some "Root") =
        [⟨"$", "Invalid JSON: Unexpected token", "InvalidExpression", "ParseError"⟩] ∧
    validate prims0 5 (.value (.num 1)) repo0 none =
        [⟨"$", "No root type declared", "UnknownType", "TypeError"⟩] ∧
    validate prims0 5 (.value (.num 1)) repo0 (some "Root") =
      validateAgainstTypeName prims0 5 (.num 1) "Root" "$" repo0
        ⟨.num 1, .num 1, .null⟩ :=
  ⟨(validate_propagation prims0 5 repo0 (some "Root")).1 (.text "bad json")
      "Unexpected token" rfl,
   (validate_propagation prims0 5 repo0 none).2.1 (.value (.num 1)) (.num 1)
      "No root type declared" rfl rfl,
   (validate_propagation prims0 5 repo0 (some "Root")).2.2 (.value (.num 1)) (.num 1)
      "Root" rfl rfl⟩

/-- Claim C2: a union appends no diagnostics iff at least one member
validates with zero diagnostics in an isolated sub-evaluation (rejected
members' diagnostics are discarded); otherwise it appends exactly one
`TypeMismatch` at the current path, however many members were tried. -/
theorem union_semantics (prims : JsPrims) (fuel : Nat) (members : List TypeNode)
    (value : Value) (path : String) (repo : Repository) (scope : Scope) :
    (validateTypeNode prims (fuel + 1) (.union members) value path repo scope = [] ↔
      ∃ m ∈ members, isValid prims fuel m value repo scope = true) ∧
    ((¬ ∃ m ∈ members, isValid prims fuel m value repo scope = true) →
      validateTypeNode prims (fuel + 1) (.union members) value path repo scope =
        [⟨path, "Value does not match any union member.", "TypeMismatch",
          "TypeError"⟩]) := by
  have hdef : validateTypeNode prims (fuel + 1) (.union members) value path repo scope =
      if members.any (fun m => (validateTypeNode prims fuel m value "$" repo scope).isEmpty)
      then []
      else [⟨path, "Value does not match any union member.", "TypeMismatch",
        "TypeError"⟩] := rfl
  rw [hdef]
  by_cases h : members.any
      (fun m => (validateTypeNode prims fuel m value "$" repo scope).isEmpty)
  · rw [if_pos h]
    have hex : ∃ m ∈ members, isValid prims fuel m value repo scope = true := by
      simpa [isValid] using List.any_eq_true.mp h
    exact ⟨iff_of_true rfl hex, fun hn => absurd hex hn⟩
  · rw [if_neg h]
    have hnex : ¬ ∃ m ∈ members, isValid prims fuel m value repo scope = true := by
      intro hex
      exact h (List.any_eq_true.mpr (by simpa [isValid] using hex))
    exact ⟨iff_of_false (by simp) hnex, fun _ => rfl⟩

/-- Claim C2 witness: a value matching no member of a two-member union
yields exactly the single union `TypeMismatch`. -/
theorem union_semantics_witness :
    validateTypeNode prims0 3 (.union [.literal (.num 1), .literal (.num 2)])
        (.num 5) "$" repo0 scope0 =
      [⟨"$", "Value does not match any union member.", "TypeMismatch",
        "TypeError"⟩] :=
  (union_semantics prims0 2 [.literal (.num 1), .literal (.num 2)] (.num 5) "$"
      repo0 scope0).2 (by decide)

/-- Boolean bookkeeping: rejecting when both sub-checks fail is accepting
when either succeeds. -/
theorem if_both_fail_flip {α : Type} (a b : Bool) (x y : α) :
    (if (!a && !b) = true then x else y) = (if (a || b) = true then y else x) := by
  cases a <;> cases b <;> simp

/-- Claim C3: a conditional node evaluates its guard against `scope.parent`
when that is non-nullish, else against `scope.root`; `true` validates
strictly against the then-branch, `false` strictly against the else-branch,
and an indeterminate guard falls back to accepting the value iff it matches
either branch in isolation, else one `TypeMismatch` at the current path. -/
theorem conditional_semantics (prims : JsPrims) (fuel : Nat) (condition : String)
    (thenType elseType : TypeNode) (value : Value) (path : String)
    (repo : Repository) (scope : Scope) :
    validateTypeNode prims (fuel + 1) (.conditional condition thenType elseType)
        value path repo scope =
      match evaluateCondition condition (jsCoalesce scope.parent scope.root) with
      | some true => validateTypeNode prims fuel thenType value path repo scope
      | some false => validateTypeNode prims fuel elseType value path repo scope
      | none =>
          if isValid prims fuel thenType value repo scope
              || isValid prims fuel elseType value repo scope then []
          else
            [⟨path, "Value does not match conditional branches.", "TypeMismatch",
              "TypeError"⟩] := by
  show (match evaluateCondition condition (jsCoalesce scope.parent scope.root) with
    | some true => validateTypeNode prims fuel thenType value path repo scope
    | some false => validateTypeNode prims fuel elseType value path repo scope
    | none =>
        if !(validateTypeNode prims fuel thenType value "$" repo scope).isEmpty
            && !(validateTypeNode prims fuel elseType value "$" repo scope).isEmpty then
          [⟨path, "Value does not match conditional branches.", "TypeMismatch",
            "TypeError"⟩]
        else []) = _
  cases evaluateCondition condition (jsCoalesce scope.parent scope.root) with
  | none =>
      simp only [isValid]
      exact if_both_fail_flip _ _ _ _
  | some b => cases b <;> rfl

/-- Claim C4 counterexample: `"a = 1"` is a guard of the claimed shape
`dotted.path = literal`, yet against the non-object scope `3` the condition
evaluates to the indeterminate result (JavaScript `null`), not to `false`
as the claim states. -/
theorem condition_nonobject_counterexample :
    parseCondition "a = 1" = some (["a"], "=", " 1") ∧
    evaluateCondition "a = 1" (Value.num 3) = none ∧
    evaluateCondition "a = 1" (Value.num 3) ≠ some false := by
  refine ⟨by decide, rfl, by decide⟩

/-- Claim C4 (amended): for a guard of the shape `dotted.path <op> literal`,
when the scope is an object the dotted-path walk yields `false` (not
indeterminate) as soon as a segment is missing or an intermediate value is
not an object; when the scope itself is not an object the condition is
indeterminate. -/
theorem condition_walk_failure_semantics (condition : String) (scope : Value)
    (segs : List String) (op rest : String)
    (hparse : parseCondition condition = some (segs, op, rest)) :
    (isObjectV scope = false → evaluateCondition condition scope = none) ∧
    (isObjectV scope = true → pathWalk scope segs = none →
      evaluateCondition condition scope = some false) := by
  constructor
  · intro hobj
    simp [evaluateCondition, hobj]
  · intro hobj hwalk
    simp [evaluateCondition, hobj, hparse, hwalk]

/-- Claim C4 witness: a missing second segment inside an object scope gives
`false`; the same guard against a non-object scope gives indeterminate. -/
theorem condition_walk_failure_witness :
    evaluateCondition "a.b = 1" (.obj [("a", .num 1)]) = some false ∧
    evaluateCondition "a.b = 1" (.num 3) = none :=
  ⟨(condition_walk_failure_semantics "a.b = 1" (.obj [("a", .num 1)])
      ["a", "b"] "=" " 1" (by decide)).2 rfl rfl,
   (condition_walk_failure_semantics "a.b = 1" (.num 3)
      ["a", "b"] "=" " 1" (by decide)).1 rfl⟩

/-- Claim C5: for a record node applied to an object, the declared fields
are processed in declaration order; an absent key is skipped silently iff
the field is optional, has a non-null `defaultExpr`, or is declared
`Absent`, and otherwise contributes exactly one `FieldMissing` at
`path.name`; keys of the value that are not declared contribute nothing
(the result is a concatenation over declared fields only). -/
theorem record_semantics (prims : JsPrims) (fuel : Nat) (fields : List FieldDef)
    (value : Value) (path : String) (repo : Repository) (scope : Scope)
    (hobj : isObjectV value = true) :
    validateTypeNode prims (fuel + 1) (.record fields) value path repo scope =
      fields.flatMap (fun field =>
        if objHas value field.name then
          validateTypeNode prims fuel field.type (objGet value field.name)
            (path ++ "." ++ field.name) repo
            { scope with current := objGet value field.name, parent := value }
        else if field.optional || !jsStrictEq field.defaultExpr .null
            || field.type.isAbsentKind then []
        else
          [⟨path ++ "." ++ field.name, "Missing required field.", "FieldMissing",
            "ValidationError"⟩]) := by
  cases value with
  | obj entries => rfl
  | undefV => simp [isObjectV] at hobj
  | null => simp [isObjectV] at hobj
  | bool b => simp [isObjectV] at hobj
  | num n => simp [isObjectV] at hobj
  | str s => simp [isObjectV] at hobj
  | arr l => simp [isObjectV] at hobj

/-- Claim C5 witness: a required `title` field absent from `{}` yields
exactly one `FieldMissing` at `$.title`. -/
theorem record_semantics_witness :
    validateTypeNode prims0 3 (.record [⟨"title", .named "String" [], false, .null⟩])
        (.obj []) "$" repo0 scope0 =
      [⟨"$.title", "Missing required field.", "FieldMissing", "ValidationError"⟩] :=
  (record_semantics prims0 2 [⟨"title", .named "String" [], false, .null⟩]
      (.obj []) "$" repo0 scope0 rfl).trans (by decide)

/-- Claim C6: one constraint application appends at most one diagnostic —
`UnknownConstraint` (`SemanticError`) when the pair does not resolve; for a
builtin, `ConstraintViolation` exactly when the native predicate applied to
the value and the resolved argument returns the JavaScript value `false`
(any other result passes), where a single call-argument is literal-coerced,
several are each coerced into an ordered list, and no call-arguments falls
back to the raw `argument`; for a custom validator, `ValidatorFailed`
exactly when the body evaluates to `false`, while indeterminate or
unparseable bodies produce no error. -/
theorem constraint_application_semantics (prims : JsPrims) (targetType : String)
    (c : ConstraintUsage) (value : Value) (path : String) (repo : Repository)
    (scope : Scope) :
    (applyConstraint prims targetType c value path repo scope =
      match repo.getValidator targetType c.name with
      | none =>
          [⟨path, "Unknown constraint: " ++ targetType ++ "." ++ c.name,
            "UnknownConstraint", "SemanticError"⟩]
      | some (.builtin ev) =>
          if jsStrictEq (ev value (resolveConstraintArgument c)) (.bool false) then
            [⟨path, "Constraint failed: " ++ targetType ++ "." ++ c.name,
              "ConstraintViolation", "ValidationError"⟩]
          else []
      | some (.custom body params) =>
          if evaluateCustomValidator prims body params c value scope = some false then
            [⟨path, "Constraint failed: " ++ targetType ++ "." ++ c.name,
              "ValidatorFailed", "ValidationError"⟩]
          else []) ∧
    (applyConstraint prims targetType c value path repo scope).length ≤ 1 ∧
    (∀ a, resolveConstraintArgument { c with callArgs := some [a] } =
      parseMaybeLiteral a) ∧
    (∀ a b l, resolveConstraintArgument { c with callArgs := some (a :: b :: l) } =
      .arr ((a :: b :: l).map parseMaybeLiteral)) ∧
    resolveConstraintArgument { c with callArgs := none } = c.argument ∧
    resolveConstraintArgument { c with callArgs := some [] } = c.argument := by
  refine ⟨rfl, ?_, fun a => rfl, fun a b l => rfl, rfl, rfl⟩
  unfold applyConstraint
  split
  · simp
  · split <;> simp
  · split <;> simp

/-- Claim C7: literal coercion trims a string operand and maps `true`,
`false`, `null` to the corresponding primitive, `-?\d+(\.\d+)?` text to the
corresponding number, single- or double-quoted text to the enclosed string
with `\n`, `\r`, `\t` decoded and any other escaped character passed
through, and any other text to the trimmed string; non-string inputs pass
through untouched. -/
theorem literal_coercion_semantics (v : Value) :
    parseMaybeLiteral v =
      match v with
      | .str s =>
          let t := jsTrim s
          if t = "true" then .bool true
          else if t = "false" then .bool false
          else if t = "null" then .null
          else if isNumericLiteral t then .num (ratOfDecimal t)
          else if isQuotedLiteral t then
            .str (String.mk (unescapeSpec ((t.toList.drop 1).dropLast)))
          else .str t
      | w => w := by
  cases v with
  | str s => simp only [parseMaybeLiteral, decodeStringLiteral,
      decodeChars_eq_unescapeSpec]
  | undefV => rfl
  | null => rfl
  | bool b => rfl
  | num n => rfl
  | arr l => rfl
  | obj es => rfl

/-- Claim C8: `validate` is a pure function of `(input, repository,
rootType)` (and the abstracted native primitives): any two invocations on
the same triple return identical diagnostic lists — the embedding threads
no state between calls, mirroring the source's freshly-allocated error
list per call and read-only repository. -/
theorem validate_deterministic (prims : JsPrims) (fuel : Nat) (input : Input)
    (repo : Repository) (rootType : Option String)
    (run1 run2 : List ValidationError)
    (h1 : run1 = validate prims fuel input repo rootType)
    (h2 : run2 = validate prims fuel input repo rootType) :
    run1 = run2 :=
  h1.trans h2.symm

/-- Claim C8 witness: two invocations on a concrete triple agree. -/
theorem validate_deterministic_witness :
    validate prims0 4 (.value (.obj [])) repo0 (some "Root") =
      validate prims0 4 (.value (.obj [])) repo0 (some "Root") :=
  validate_deterministic prims0 4 (.value (.obj [])) repo0 (some "Root") _ _ rfl rfl

/-- Claim C9: a named node first checks the value against the resolved type
name and then applies every attached constraint unconditionally — the
constraint diagnostics are appended after whatever `UnknownType` or
`TypeMismatch` diagnostics the name check produced, so one node can emit
both kinds at the same path in one pass. -/
theorem named_semantics (prims : JsPrims) (fuel : Nat) (name : String)
    (cs : List ConstraintUsage) (value : Value) (path : String)
    (repo : Repository) (scope : Scope) :
    validateTypeNode prims (fuel + 1) (.named name cs) value path repo scope =
      validateAgainstTypeName prims fuel value name path repo scope ++
        cs.flatMap (fun c => applyConstraint prims name c value path repo scope) :=
  rfl

/-- Claim C10: a type node that is `null`, not an object, or of an
unrecognized kind (anything outside the handled dispatch set) appends no
diagnostics for any value and any scope — such nodes vacuously accept
everything (and the evaluator, being total, never throws). -/
theorem unhandled_node_accepts (prims : JsPrims) (fuel : Nat) (value : Value)
    (path : String) (repo : Repository) (scope : Scope) :
    validateTypeNode prims fuel .other value path repo scope = [] := by
  cases fuel with
  | zero => rfl
  | succ n => rfl

end Scedel
